import Mathlib

/-!
Verification development for the graphein protein/RNA graph-construction
module (`graphein/construct_graphs.py`).

The Python source is shallowly embedded: pandas dataframes become lists of
records, numpy float scalars become exact rationals (`ℚ`), fallible code
(uncaught Python exceptions such as `IndexError`, `TypeError`, `ValueError`
or failed `assert`s) is modelled with `Option`/`Except`, and the `dgl`
graph object is modelled by the node/edge data the code stores in it.

Euclidean distances: the source computes `sqrt`-based distances and
compares them with `<`.  Since `Real.sqrt` is noncomputable, the embedding
stores *squared* distances and embeds the comparison `dist < cutoff` by the
equivalent executable test `0 < cutoff ∧ dist² < cutoff²` (`distLtB`); the
bridge lemma `distLtB_sqrt` proves this equivalent to the source's
`Real.sqrt dist² < cutoff`.
-/

/-- Python truthiness of an `Optional[int]` attribute
(`if self.long_interaction_threshold:`): `None` and `0` are falsy,
every other integer is truthy. -/
def truthy : Option ℤ → Bool
  | none => false
  | some v => v != 0

/-- Splitting a character list at a separator, as Python `str.split(sep)` /
the colon structure of GetContacts residue identifiers. -/
def splitOnChar (sep : Char) : List Char → List (List Char)
  | [] => [[]]
  | c :: cs =>
    let rest := splitOnChar sep cs
    if c == sep then [] :: rest
    else
      match rest with
      | [] => [[c]]
      | r :: rs => (c :: r) :: rs

/-- Joining character-list fields with a separator character. -/
def joinWithChar (sep : Char) : List (List Char) → List Char
  | [] => []
  | [r] => r
  | r :: rs => r ++ sep :: joinWithChar sep rs

/-- First maximal run of digits in a string, as pandas
`.str.extract("(\d+)")`; `[]` when the string holds no digit (pandas
yields `NaN` there, and the subsequent `.astype(int)` raises). -/
def firstDigitRun (s : String) : List Char :=
  (s.data.dropWhile (fun c => !c.isDigit)).takeWhile (fun c => c.isDigit)

/-- Decimal digits to a number, for the `.astype(int)` conversion. -/
def digitsToNat (cs : List Char) : ℕ :=
  cs.foldl (fun acc c => acc * 10 + (c.toNat - 48)) 0

/-- `.astype(int)` applied to the result of `.str.extract("(\d+)")`:
`none` models the `ValueError` raised on a digit-free string. -/
def extract_int (s : String) : Option ℤ :=
  match firstDigitRun s with
  | [] => none
  | cs => some (digitsToNat cs : ℤ)

/-- Row-wise fallible map: `none` as soon as one element fails, modelling a
Python loop or vectorized pandas operation that raises on a bad element. -/
def optionMapList (f : α → Option β) : List α → Option (List β)
  | [] => some []
  | a :: l =>
    match f a, optionMapList f l with
    | some b, some bs => some (b :: bs)
    | _, _ => none

/-- Squared Euclidean distance between two 3-D coordinates. -/
def sqDist (p q : ℚ × ℚ × ℚ) : ℚ :=
  (p.1 - q.1) ^ 2 + (p.2.1 - q.2.1) ^ 2 + (p.2.2 - q.2.2) ^ 2

/-- Executable embedding of the source comparison
`euclidean_distance < cutoff`, applied to the squared distance:
for `0 ≤ sq` this is equivalent to `Real.sqrt sq < c` (`distLtB_sqrt`). -/
def distLtB (sq c : ℚ) : Bool :=
  decide (0 < c ∧ sq < c ^ 2)

/-- One row of the cleaned protein dataframe produced by `_protein_df` /
`_get_chains` (a `PandasPdb` ATOM record at residue granularity). -/
structure NodeRow where
  chain_id : String
  residue_name : String
  residue_number : ℤ
  x_coord : ℚ
  y_coord : ℚ
  z_coord : ℚ
  deriving DecidableEq, Repr, Inhabited

/-- The `[["x_coord", "y_coord", "z_coord"]]` projection. -/
def coord (r : NodeRow) : ℚ × ℚ × ℚ :=
  (r.x_coord, r.y_coord, r.z_coord)

/-- The three granularity branches of `dgl_graph_from_pdb_code`:
`granularity == "atom"` builds an atom graph, `"ss"` raises
`NotImplementedError`, and the third test selects residue-level
construction.  `none` would model falling through all three tests
(reaching the end of the function with `g` unbound). -/
inductive GranBranch
  | atomGraph
  | ssNotImplemented
  | residueGraph
  deriving DecidableEq, Repr

/-- Embedding of the Python condition
`self.granularity == "CA" or "CB" or "centroids"`: an `or`-chain whose
later operands are the non-empty (hence truthy) string literals
`"CB"` and `"centroids"`. -/
def granularity_cond (granularity : String) : Bool :=
  (granularity == "CA") || !("CB".isEmpty) || !("centroids".isEmpty)

/-- Granularity dispatch of `dgl_graph_from_pdb_code` (lines 291-304). -/
def granularity_dispatch (granularity : String) : Option GranBranch :=
  if granularity == "atom" then some GranBranch.atomGraph
  else if granularity == "ss" then some GranBranch.ssNotImplemented
  else if granularity_cond granularity then some GranBranch.residueGraph
  else none

/-- The `"meiler"` entry of `ProteinGraph.embedding_dict` (7-dimensional
residue embeddings keyed by three-letter codes, with an explicit
`"UNKNOWN"` all-zero row). -/
def meiler_table : List (String × List ℚ) :=
  [("ALA", [1.28, 0.05, 1.00, 0.31, 6.11, 0.42, 0.23]),
   ("GLY", [0.00, 0.00, 0.00, 0.00, 6.07, 0.13, 0.15]),
   ("VAL", [3.67, 0.14, 3.00, 1.22, 6.02, 0.27, 0.49]),
   ("LEU", [2.59, 0.19, 4.00, 1.70, 6.04, 0.39, 0.31]),
   ("ILE", [4.19, 0.19, 4.00, 1.80, 6.04, 0.30, 0.45]),
   ("PHE", [2.94, 0.29, 5.89, 1.79, 5.67, 0.30, 0.38]),
   ("TYR", [2.94, 0.30, 6.47, 0.96, 5.66, 0.25, 0.41]),
   ("PTR", [2.94, 0.30, 6.47, 0.96, 5.66, 0.25, 0.41]),
   ("TRP", [3.21, 0.41, 8.08, 2.25, 5.94, 0.32, 0.42]),
   ("THR", [3.03, 0.11, 2.60, 0.26, 5.60, 0.21, 0.36]),
   ("TPO", [3.03, 0.11, 2.60, 0.26, 5.60, 0.21, 0.36]),
   ("SER", [1.31, 0.06, 1.60, -0.04, 5.70, 0.20, 0.28]),
   ("SEP", [1.31, 0.06, 1.60, -0.04, 5.70, 0.20, 0.28]),
   ("ARG", [2.34, 0.29, 6.13, -1.01, 10.74, 0.36, 0.25]),
   ("LYS", [1.89, 0.22, 4.77, -0.99, 9.99, 0.32, 0.27]),
   ("KCX", [1.89, 0.22, 4.77, -0.99, 9.99, 0.32, 0.27]),
   ("LLP", [1.89, 0.22, 4.77, -0.99, 9.99, 0.32, 0.27]),
   ("HIS", [2.99, 0.23, 4.66, 0.13, 7.69, 0.27, 0.30]),
   ("ASP", [1.60, 0.11, 2.78, -0.77, 2.95, 0.25, 0.20]),
   ("GLU", [1.56, 0.15, 3.78, -0.64, 3.09, 0.42, 0.21]),
   ("PCA", [1.56, 0.15, 3.78, -0.64, 3.09, 0.42, 0.21]),
   ("ASN", [1.60, 0.13, 2.95, -0.60, 6.52, 0.21, 0.22]),
   ("GLN", [1.56, 0.18, 3.95, -0.22, 5.65, 0.36, 0.25]),
   ("MET", [2.35, 0.22, 4.43, 1.23, 5.71, 0.38, 0.32]),
   ("MSE", [2.35, 0.22, 4.43, 1.23, 5.71, 0.38, 0.32]),
   ("PRO", [2.67, 0.00, 2.72, 0.72, 6.80, 0.13, 0.34]),
   ("CYS", [1.77, 0.13, 2.43, 1.54, 6.35, 0.17, 0.41]),
   ("CSO", [1.77, 0.13, 2.43, 1.54, 6.35, 0.17, 0.41]),
   ("CAS", [1.77, 0.13, 2.43, 1.54, 6.35, 0.17, 0.41]),
   ("CAF", [1.77, 0.13, 2.43, 1.54, 6.35, 0.17, 0.41]),
   ("CSD", [1.77, 0.13, 2.43, 1.54, 6.35, 0.17, 0.41]),
   ("UNKNOWN", [0.00, 0.00, 0.00, 0.00, 0.00, 0.00, 0.00])]

/-- The `"kidera"` entry of `ProteinGraph.embedding_dict` (10-dimensional
embeddings keyed by one-letter codes, with an `"UNKNOWN"` all-zero row). -/
def kidera_table : List (String × List ℚ) :=
  [("A", [-1.56, -1.67, -0.97, -0.27, -0.93, -0.78, -0.2, -0.08, 0.21, -0.48]),
   ("C", [0.12, -0.89, 0.45, -1.05, -0.71, 2.41, 1.52, -0.69, 1.13, 1.1]),
   ("E", [-1.45, 0.19, -1.61, 1.17, -1.31, 0.4, 0.04, 0.38, -0.35, -0.12]),
   ("D", [0.58, -0.22, -1.58, 0.81, -0.92, 0.15, -1.52, 0.47, 0.76, 0.7]),
   ("G", [1.46, -1.96, -0.23, -0.16, 0.1, -0.11, 1.32, 2.36, -1.66, 0.46]),
   ("F", [-0.21, 0.98, -0.36, -1.43, 0.22, -0.81, 0.67, 1.1, 1.71, -0.44]),
   ("I", [-0.73, -0.16, 1.79, -0.77, -0.54, 0.03, -0.83, 0.51, 0.66, -1.78]),
   ("H", [-0.41, 0.52, -0.28, 0.28, 1.61, 1.01, -1.85, 0.47, 1.13, 1.63]),
   ("K", [-0.34, 0.82, -0.23, 1.7, 1.54, -1.62, 1.15, -0.08, -0.48, 0.6]),
   ("M", [-1.4, 0.18, -0.42, -0.73, 2.0, 1.52, 0.26, 0.11, -1.27, 0.27]),
   ("L", [-1.04, 0.0, -0.24, -1.1, -0.55, -2.05, 0.96, -0.76, 0.45, 0.93]),
   ("N", [1.14, -0.07, -0.12, 0.81, 0.18, 0.37, -0.09, 1.23, 1.1, -1.73]),
   ("Q", [-0.47, 0.24, 0.07, 1.1, 1.1, 0.59, 0.84, -0.71, -0.03, -2.33]),
   ("P", [2.06, -0.33, -1.15, -0.75, 0.88, -0.45, 0.3, -2.3, 0.74, -0.28]),
   ("S", [0.81, -1.08, 0.16, 0.42, -0.21, -0.43, -1.89, -1.15, -0.97, -0.23]),
   ("R", [0.22, 1.27, 1.37, 1.87, -1.7, 0.46, 0.92, -0.39, 0.23, 0.93]),
   ("T", [0.26, -0.7, 1.21, 0.63, -0.1, 0.21, 0.24, -1.15, -0.56, 0.19]),
   ("W", [0.3, 2.1, -0.72, -1.57, -1.16, 0.57, -0.48, -0.4, -2.3, -0.6]),
   ("V", [-0.74, -0.71, 2.04, -0.4, 0.5, -0.81, -1.07, 0.06, -0.46, 0.65]),
   ("Y", [1.38, 1.48, 0.8, -0.56, -0.0, -0.68, -0.31, 1.03, -0.05, 0.53]),
   ("UNKNOWN", [0.00, 0.00, 0.00, 0.00, 0.00, 0.00, 0.00, 0.00, 0.00, 0.00])]

/-- `self.embedding_dict[embedding]`: `none` models the `KeyError` raised
for a scheme other than `"meiler"` / `"kidera"`. -/
def embedding_dict (embedding : String) : Option (List (String × List ℚ)) :=
  if embedding == "meiler" then some meiler_table
  else if embedding == "kidera" then some kidera_table
  else none

/-- `ProteinGraph._aa_features`: look the residue up in the scheme's
table, substituting the key `"UNKNOWN"` when absent. -/
def _aa_features (residue : String) (embedding : String) : Option (List ℚ) :=
  match embedding_dict embedding with
  | none => none
  | some table =>
    let residue := if (table.lookup residue).isSome then residue else "UNKNOWN"
    table.lookup residue

/-- `ProteinGraph._onek_encoding_unk`: `[x == s for s in allowable_set]`. -/
def _onek_encoding_unk (x : String) (allowable_set : List String) : List Bool :=
  allowable_set.map (fun s => x == s)

/-- One row of the edge dataframe built by `_get_protein_edges`. -/
structure EdgeRow where
  res1 : String
  res2 : String
  interaction_type : String
  deriving DecidableEq, Repr

/-- Embedding of `re.search(r".\:(.*?)\:(.*?)(?=:)", res)[0]` for the
well-formed GetContacts residue identifiers the tool emits
(single-character chain, colon-free name and number fields, at least four
`:`-separated fields): the match is the first three fields rejoined.
`none` models the `TypeError` from subscripting a failed search (fewer
than three colons). -/
def truncate_res (s : String) : Option String :=
  let fields := splitOnChar ':' s.data
  if fields.length ≥ 4 then some (String.mk (joinWithChar ':' (fields.take 3)))
  else none

/-- Parsing of one data line of the contacts file inside
`_get_protein_edges`'s loop.  The line is given post-I/O as the triple
`(linfo[1], linfo[2], linfo[3])` = (interaction type, res1, res2).  The
source guard `granularity == "CA" or "CB" or "atom"` is always truthy, so
`res1`/`res2` are always read; they are regex-truncated unless the
granularity is `"atom"`. -/
def parse_contact_line (granularity : String) (line : String × String × String) :
    Option EdgeRow :=
  let (interaction_type, res1, res2) := line
  if granularity != "atom" then
    match truncate_res res1, truncate_res res2 with
    | some a, some b => some ⟨a, b, interaction_type⟩
    | _, _ => none
  else some ⟨res1, res2, interaction_type⟩

/-- pandas `.str.contains("[A-Z]$")`: the final character is an
uppercase letter. -/
def endsUpper (s : String) : Bool :=
  match s.data.getLast? with
  | some c => c.isUpper
  | none => false

/-- pandas `.str.contains(":0$")`. -/
def endsColonZero (s : String) : Bool :=
  s.data.reverse.take 2 == ['0', ':']

/-- pandas `.str.contains("^X:")`. -/
def startsXColon (s : String) : Bool :=
  s.data.take 2 == ['X', ':']

/-- pandas `.str.startswith(tuple(chain_selection))`. -/
def startsWithChain (chain_selection : String) (s : String) : Bool :=
  chain_selection.data.any (fun c => s.data.take 1 == [c])

/-- The deduplication and filter cascade of `_get_protein_edges`: collect
the parsed rows into a set (exact duplicate triples collapse; the
dataframe order of a Python set is unspecified, modelled here as
first-occurrence order), keep only whitelisted interaction types,
restrict both endpoints to the selected chains, and drop malformed
identifiers (trailing uppercase letter, residue number zero,
placeholder chain `X`). -/
def filter_contact_edges (interaction_types : List String)
    (chain_selection : String) (rows : List EdgeRow) : List EdgeRow :=
  let edges := rows.dedup
  let edges := edges.filter (fun r => r.interaction_type ∈ interaction_types)
  let edges :=
    if chain_selection != "all" then
      (edges.filter (fun r => startsWithChain chain_selection r.res1)).filter
        (fun r => startsWithChain chain_selection r.res2)
    else edges
  let edges := edges.filter (fun r => !endsUpper r.res1)
  let edges := edges.filter (fun r => !endsUpper r.res2)
  let edges := edges.filter (fun r => !endsColonZero r.res1)
  let edges := edges.filter (fun r => !endsColonZero r.res2)
  let edges := edges.filter (fun r => !startsXColon r.res1)
  let edges := edges.filter (fun r => !startsXColon r.res2)
  edges

/-- The `if self.long_interaction_threshold:` block of
`_get_protein_edges`: extract the residue numbers of both endpoints of
every row (`none` models the `ValueError` of `.astype(int)` on a
digit-free identifier) and keep rows with `abs(res1 - res2) > threshold`. -/
def apply_threshold (t : Option ℤ) (rows : List EdgeRow) : Option (List EdgeRow) :=
  if truthy t then
    match optionMapList
        (fun r =>
          match extract_int r.res1, extract_int r.res2 with
          | some a, some b => some (r, a, b)
          | _, _ => none) rows with
    | none => none
    | some nums => some ((nums.filter (fun x => t.getD 0 < |x.2.1 - x.2.2|)).map (·.1))
  else some rows

/-- `ProteinGraph._get_protein_edges`, taking the contacts file as the
list of its parsed data lines (the two header lines already skipped and
each remaining line split on tabs — I/O glue). -/
def _get_protein_edges (granularity : String) (interaction_types : List String)
    (chain_selection : String) (t : Option ℤ)
    (lines : List (String × String × String)) : Option (List EdgeRow) :=
  match optionMapList (parse_contact_line granularity) lines with
  | none => none
  | some rows => apply_threshold t (filter_contact_edges interaction_types chain_selection rows)

/-- One contact edge as inserted into the DGL graph by
`_add_protein_edges_to_graph` (endpoint node indices, one-hot
`rel_type`, constant `norm`). -/
structure ContactEdge where
  src : ℕ
  dst : ℕ
  rel_type : List Bool
  norm : ℚ
  deriving DecidableEq, Repr

/-- `dict(zip(list(g.ndata["id"]), list(range(...))))` as a lookup: a
Python dict built from pairs keeps the **last** index for a duplicated
id.  Only called on ids present in the list. -/
def idIndexMap (ids : List String) (x : String) : ℕ :=
  ((List.range ids.length).filter (fun i => ids.getD i "" == x)).getLastD 0

/-- `ProteinGraph._add_protein_edges_to_graph`: for granularity
`"dense"` every ordered pair of distinct node indices is connected
(no attributes); otherwise edges whose endpoints are absent from the
graph's id set are dropped, ids are resolved to indices, and each edge
carries the one-hot interaction encoding and `norm = 1`. -/
def _add_protein_edges_to_graph (granularity : String) (nodeIds : List String)
    (interaction_types : List String) (e : List EdgeRow) :
    List (ℕ × ℕ) ⊕ List ContactEdge :=
  if granularity == "dense" then
    let n := nodeIds.length
    Sum.inl
      (((List.range n).flatMap (fun i => (List.range (n - 1)).map (fun _ => i))).zip
        ((List.range n).flatMap (fun i => (List.range n).filter (fun j => !(j == i)))))
  else
    let e := e.filter (fun r => nodeIds.contains r.res1)
    let e := e.filter (fun r => nodeIds.contains r.res2)
    Sum.inr
      (e.map (fun r =>
        ⟨idIndexMap nodeIds r.res1, idIndexMap nodeIds r.res2,
         _onek_encoding_unk r.interaction_type interaction_types, 1⟩))

/-- The contact-strategy pipeline of `dgl_graph_from_pdb_code`:
`_get_protein_edges` followed by `_add_protein_edges_to_graph`. -/
def contact_pipeline (granularity : String) (interaction_types : List String)
    (chain_selection : String) (t : Option ℤ)
    (lines : List (String × String × String)) (nodeIds : List String) :
    Option (List (ℕ × ℕ) ⊕ List ContactEdge) :=
  (_get_protein_edges granularity interaction_types chain_selection t lines).map
    (_add_protein_edges_to_graph granularity nodeIds interaction_types)

/-- One k-NN edge row (`res1` = source index, `res2` = neighbour index,
`distance` = `nn.data` entry: `1` in connectivity mode, else the
neighbour distance — stored squared, see the module comment). -/
structure KnnEdge where
  res1 : ℕ
  res2 : ℕ
  distance : ℚ
  deriving DecidableEq, Repr

/-- Insertion into a list sorted by `le`. -/
def insertSorted (le : ℕ → ℕ → Bool) (a : ℕ) : List ℕ → List ℕ
  | [] => [a]
  | b :: bs => if le a b then a :: b :: bs else b :: insertSorted le a bs

/-- Insertion sort by `le`. -/
def sortByB (le : ℕ → ℕ → Bool) : List ℕ → List ℕ
  | [] => []
  | a :: l => insertSorted le a (sortByB le l)

/-- `sklearn.neighbors.kneighbors_graph` row for node `i`: the `k`
candidates (all other indices, or all indices when `include_self`)
nearest to `i` in Euclidean (minkowski, p=2) distance, ties broken by
index order. -/
def kNeighbors (coords : List (ℚ × ℚ × ℚ)) (include_self : Bool) (i k : ℕ) :
    List ℕ :=
  let cands := (List.range coords.length).filter
    (fun j => include_self || !(j == i))
  let key := fun j => sqDist (coords.getD i (0, 0, 0)) (coords.getD j (0, 0, 0))
  (sortByB (fun a b => decide (key a < key b ∨ (key a = key b ∧ a ≤ b))) cands).take k

/-- `ProteinGraph._k_nn_edges`: `none` models the sklearn `ValueError`
when more neighbours are requested than candidates exist; otherwise each
node `i` contributes its `k` neighbour rows (`np.repeat` of sources
zipped with `nn.indices`), with the `nn.data` attribute (`1` in
connectivity mode, squared distance otherwise), then the
`long_interaction_threshold` filter
`abs(abs(res1) - abs(res2)) > threshold` on indices. -/
def _k_nn_edges (protein_df : List NodeRow) (k : ℕ) (mode : String)
    (include_self : Bool) (t : Option ℤ) : Option (List KnnEdge) :=
  let coords := protein_df.map coord
  let n := coords.length
  if (!include_self && n ≤ k) || (include_self && n < k) then none
  else
    let edge_df := (List.range n).flatMap (fun i =>
      (kNeighbors coords include_self i k).map (fun j =>
        (⟨i, j,
          if mode == "connectivity" then 1
          else sqDist (coords.getD i (0, 0, 0)) (coords.getD j (0, 0, 0))⟩ : KnnEdge)))
    some (if truthy t then
      edge_df.filter (fun e => t.getD 0 < |(e.res1 : ℤ) - (e.res2 : ℤ)|)
    else edge_df)

/-- One row of the stacked distance edge list of `_distance_based_edges`
(`level_0` = row index, `level_1` = column index, column `0` = the kept
distance — stored squared, see the module comment). -/
structure DistEdge where
  level_0 : ℕ
  level_1 : ℕ
  dist_sq : ℚ
  deriving DecidableEq, Repr

/-- `ProteinGraph._distance_based_edges`: pairwise distance matrix over
the coordinates, entries at or above the cutoff zeroed
(`np.where(dists < cutoff, dists, 0)`), upper triangle zeroed
(`np.tril`), diagonal dropped (`np.nan` then `stack`), zero entries
dropped (`dists[0] != 0`), then the `long_interaction_threshold` filter
`abs(abs(level_0) - abs(level_1)) > threshold` on indices.  The
surviving entries are exactly the pairs `j < i` with
`0 < dist(i,j) < cutoff`, in row-major order. -/
def _distance_based_edges (protein_df : List NodeRow) (cutoff : ℚ)
    (t : Option ℤ) : List DistEdge :=
  let coords := protein_df.map coord
  let n := coords.length
  let dists := (List.range n).flatMap (fun i =>
    (List.range n).filterMap (fun j =>
      if j < i then
        let sq := sqDist (coords.getD i (0, 0, 0)) (coords.getD j (0, 0, 0))
        if distLtB sq cutoff && !(sq == 0) then some (⟨i, j, sq⟩ : DistEdge)
        else none
      else none))
  if truthy t then
    dists.filter (fun e => t.getD 0 < |(e.level_0 : ℤ) - (e.level_1 : ℤ)|)
  else dists

/-- One Delaunay edge row of `_get_delaunay_edges` (endpoint indices and
the per-edge Euclidean distance — stored squared, see the module
comment). -/
structure DelEdge where
  res1 : ℕ
  res2 : ℕ
  distance : ℚ
  deriving DecidableEq, Repr

/-- `ProteinGraph._get_delaunay_edges`, taking the triangulation's
`vertex_neighbor_vertices` output as input (the scipy call itself is an
external geometric computation): with the source's variable names,
`indices` is the offset array and `indptr` the flat neighbour array; for
each vertex `i` the slice `indptr[indices[i]:indices[i+1]]` lists its
neighbours `j`, each contributing an edge `(i, j)` with its distance,
then the `long_interaction_threshold` filter on indices. -/
def _get_delaunay_edges (protein_df : List NodeRow) (indices indptr : List ℕ)
    (t : Option ℤ) : List DelEdge :=
  let coords := protein_df.map coord
  let edges := (List.range (indices.length - 1)).flatMap (fun i =>
    ((indptr.drop (indices.getD i 0)).take (indices.getD (i + 1) 0 - indices.getD i 0)).map
      (fun j => (i, j)))
  let edge_df := edges.map (fun p =>
    (⟨p.1, p.2, sqDist (coords.getD p.1 (0, 0, 0)) (coords.getD p.2 (0, 0, 0))⟩ : DelEdge))
  if truthy t then
    edge_df.filter (fun e => t.getD 0 < |(e.res1 : ℤ) - (e.res2 : ℤ)|)
  else edge_df

/-- The three per-residue descriptor tensors computed by
`_compute_protein_feature_representations` (rows = residues; `ss` is
9-wide one-hot, `asa`/`rsa` are 1-wide). -/
structure FeatureDict where
  ss : List (List ℚ)
  asa : List (List ℚ)
  rsa : List (List ℚ)
  deriving DecidableEq, Repr

/-- `F.pad(tensor, [0, 0, 0, pad_length], "constant", 0)`: append
`pad_length` all-zero rows (of the tensor's width) at the bottom. -/
def padRows (m : List (List ℚ)) (pad_length : ℕ) : List (List ℚ) :=
  m ++ List.replicate pad_length (List.replicate (m.headD []).length 0)

/-- `ProteinGraph._add_protein_features`: zero-pad the three descriptor
tensors at the bottom when the graph has more nodes than DSSP produced
rows (`pad_length = len(g.ndata["h"]) - len(feature_dict["ss"])`), then
assign them to the node data. -/
def _add_protein_features (numNodes : ℕ) (feature_dict : FeatureDict) :
    FeatureDict :=
  let pad_length : ℤ := (numNodes : ℤ) - (feature_dict.ss.length : ℤ)
  if 0 < pad_length then
    ⟨padRows feature_dict.ss pad_length.toNat,
     padRows feature_dict.asa pad_length.toNat,
     padRows feature_dict.rsa pad_length.toNat⟩
  else feature_dict

/-- `RNAGraph.RNA_bases = ["A", "U", "G", "C", "I"]` (single-character
strings, modelled as the characters they are compared against). -/
def RNA_bases : List Char := ['A', 'U', 'G', 'C', 'I']

/-- Modelled from the spec: `graphein.utils.onek_encoding_unk` is not in
the provided sources (only `graphein/construct_graphs.py` is); §4.6 of
the spec says RNA node features are "one-hot over a fixed base alphabet
with an explicit 'unknown' fallback".  Mirrors
`ProteinGraph._onek_encoding_unk` with the fallback substituting the
last element of the allowable set for an unknown symbol. -/
def utils_onek_encoding_unk (x : Char) (allowable_set : List Char) : List Bool :=
  let x := if x ∈ allowable_set then x else allowable_set.getLastD x
  allowable_set.map (fun s => x == s)

/-- The data `RNAGraph.dgl_graph_from_dotbracket` stores in the DGL
graph: node count, the optional per-node base features `ndata["x"]`, the
backbone edges (`rel_type` 0, added between each position `i > 0` and
`i - 1`) and the base-pair edges (`rel_type` 1, added from each `)` to
its matching `(`). -/
structure RNAGraphData where
  numNodes : ℕ
  x : Option (List (List Bool))
  backbone : List (ℕ × ℕ)
  basePairs : List (ℕ × ℕ)
  deriving DecidableEq, Repr

/-- The connectivity loop of `dgl_graph_from_dotbracket`: iterate over
the dot-bracket characters with their index, pushing `(` positions,
popping on `)` (`.error ()` models the uncaught `IndexError` of
`bases.pop()` on an empty list), skipping `.`, and returning
`.ok none` (the Python `return None`) on any other character.  The
stack head is the most recent unmatched `(`. -/
def buildLoop : List Char → ℕ → List ℕ → List (ℕ × ℕ) → List (ℕ × ℕ) →
    Except Unit (Option (List ℕ × List (ℕ × ℕ) × List (ℕ × ℕ)))
  | [], _, bases, bb, bp => .ok (some (bases, bb, bp))
  | c :: cs, i, bases, bb, bp =>
    let bb := if i > 0 then bb ++ [(i, i - 1)] else bb
    if c == '(' then buildLoop cs (i + 1) (i :: bases) bb bp
    else if c == ')' then
      match bases with
      | [] => .error ()
      | neighbor :: rest => buildLoop cs (i + 1) rest bb (bp ++ [(i, neighbor)])
    else if c == '.' then buildLoop cs (i + 1) bases bb bp
    else .ok none

/-- `RNAGraph.dgl_graph_from_dotbracket`: add one node per dot-bracket
position, featurise the nodes when a sequence is supplied (`.error ()`
models the failed length `assert`), then run the connectivity loop. -/
def dgl_graph_from_dotbracket (dotbracket : String) (sequence : Option String) :
    Except Unit (Option RNAGraphData) :=
  let numNodes := dotbracket.length
  match
    (match sequence with
     | some seq =>
       if seq.length == dotbracket.length then
         Except.ok (some (seq.data.map (fun c => utils_onek_encoding_unk c RNA_bases)))
       else Except.error ()
     | none => Except.ok none) with
  | .error () => .error ()
  | .ok feats =>
    match buildLoop dotbracket.data 0 [] [] [] with
    | .error () => .error ()
    | .ok none => .ok none
    | .ok (some (_, bb, bp)) => .ok (some ⟨numNodes, feats, bb, bp⟩)

/-- All characters of a dot-bracket string lie in the recognised
alphabet `{'(', ')', '.'}`. -/
def allDotBracket (cs : List Char) : Bool :=
  cs.all (fun c => c == '(' || c == ')' || c == '.')

/-- The stack of unmatched `(` positions never underflows when the loop
starts with `d` entries: every `)` finds an opening partner. -/
def stackSafe : List Char → ℕ → Bool
  | [], _ => true
  | c :: cs, d =>
    if c == ')' then decide (0 < d) && stackSafe cs (d - 1)
    else if c == '(' then stackSafe cs (d + 1)
    else stackSafe cs d

/-- A balanced dot-bracket string: recognised alphabet, no unmatched
`)`, and equally many `(` and `)`. -/
def balancedDotBracket (s : String) : Bool :=
  allDotBracket s.data && stackSafe s.data 0 &&
    (s.data.count '(' == s.data.count ')')

/-- Sample cleaned node table: two residues at Euclidean distance 1. -/
def sample_df_pair : List NodeRow :=
  [⟨"A", "ALA", 1, 1, 0, 0⟩, ⟨"A", "GLY", 2, 0, 0, 0⟩]

/-- Sample cleaned node table whose first and third rows (different
chains) carry the same residue sequence number 5. -/
def sample_df_seqsep : List NodeRow :=
  [⟨"A", "ALA", 5, 0, 0, 0⟩, ⟨"A", "GLY", 6, 10, 0, 0⟩, ⟨"B", "ALA", 5, 1, 0, 0⟩]

/-- Sample cleaned node table: three collinear residues one unit apart. -/
def sample_df_line : List NodeRow :=
  [⟨"A", "ALA", 1, 0, 0, 0⟩, ⟨"A", "GLY", 2, 1, 0, 0⟩, ⟨"A", "VAL", 3, 2, 0, 0⟩]

theorem lookup_mem {α β : Type} [BEq α] [LawfulBEq α] {l : List (α × β)}
    {k : α} {v : β} (h : l.lookup k = some v) : (k, v) ∈ l := by
  induction l with
  | nil => simp [List.lookup] at h
  | cons p l ih =>
    rw [List.lookup] at h
    split at h
    · next heq =>
      cases h
      have hk : k = p.1 := by simpa using heq
      subst hk
      exact List.mem_cons_self _ _
    · exact List.mem_cons_of_mem _ (ih h)

theorem sqDist_nonneg (p q : ℚ × ℚ × ℚ) : 0 ≤ sqDist p q := by
  unfold sqDist
  positivity

theorem distLtB_sqrt {sq c : ℚ} (h : distLtB sq c = true) :
    Real.sqrt (sq : ℝ) < (c : ℝ) := by
  have h' : 0 < c ∧ sq < c ^ 2 := of_decide_eq_true h
  have hc : (0 : ℝ) < (c : ℝ) := by exact_mod_cast h'.1
  rw [Real.sqrt_lt' hc]
  exact_mod_cast h'.2

theorem embedding_dict_meiler : embedding_dict "meiler" = some meiler_table := rfl

theorem embedding_dict_kidera : embedding_dict "kidera" = some kidera_table := rfl

theorem granularity_cond_true (granularity : String) :
    granularity_cond granularity = true := by
  unfold granularity_cond
  have h : "CB".isEmpty = false := rfl
  rw [h]
  simp

/-- Claim C1: for every granularity string outside the recognized set, the
dispatch of `dgl_graph_from_pdb_code` selects the residue-graph
construction branch and proceeds — the condition
`granularity == "CA" or "CB" or "centroids"` is always truthy — instead
of raising a configuration error (supports the `code_bug` status: the
spec requires an error here and itself flags the source condition as a
latent defect). -/
theorem unrecognized_granularity_proceeds (granularity : String)
    (h1 : granularity ≠ "atom") (h2 : granularity ≠ "ss") :
    granularity_dispatch granularity = some GranBranch.residueGraph := by
  unfold granularity_dispatch
  rw [if_neg (by simpa using h1), if_neg (by simpa using h2),
    if_pos (granularity_cond_true granularity)]

/-- Concrete instance of `unrecognized_granularity_proceeds` at the
unrecognized granularity `"foo"`. -/
theorem unrecognized_granularity_proceeds_witness :
    granularity_dispatch "foo" = some GranBranch.residueGraph :=
  unrecognized_granularity_proceeds "foo" (by decide) (by decide)

theorem meiler_row_lengths :
    meiler_table.all (fun p => p.2.length == 7) = true := by decide

theorem kidera_row_lengths :
    kidera_table.all (fun p => p.2.length == 10) = true := by decide

theorem meiler_unknown_zero :
    meiler_table.lookup "UNKNOWN" = some (List.replicate 7 (0 : ℚ)) := by
  with_unfolding_all decide

theorem kidera_unknown_zero :
    kidera_table.lookup "UNKNOWN" = some (List.replicate 10 (0 : ℚ)) := by
  with_unfolding_all decide

theorem aa_features_meiler_eq (residue : String) :
    _aa_features residue "meiler" =
      if (meiler_table.lookup residue).isSome then meiler_table.lookup residue
      else meiler_table.lookup "UNKNOWN" := by
  simp only [_aa_features, embedding_dict_meiler]
  by_cases h : (meiler_table.lookup residue).isSome
  · simp [h]
  · simp [h]

theorem aa_features_kidera_eq (residue : String) :
    _aa_features residue "kidera" =
      if (kidera_table.lookup residue).isSome then kidera_table.lookup residue
      else kidera_table.lookup "UNKNOWN" := by
  simp only [_aa_features, embedding_dict_kidera]
  by_cases h : (kidera_table.lookup residue).isSome
  · simp [h]
  · simp [h]

/-- Claim C6: residue-feature lookup is total for both schemes: a name
absent from the scheme's table embeds to the all-zero vector of the
scheme's dimensionality (7 for `"meiler"`, 10 for `"kidera"`), and every
name embeds to some vector of that fixed dimensionality (never an
error). -/
theorem aa_features_total_unknown_zero (residue : String) :
    (meiler_table.lookup residue = none →
      _aa_features residue "meiler" = some (List.replicate 7 (0 : ℚ))) ∧
    (kidera_table.lookup residue = none →
      _aa_features residue "kidera" = some (List.replicate 10 (0 : ℚ))) ∧
    (∃ v, _aa_features residue "meiler" = some v ∧ v.length = 7) ∧
    (∃ v, _aa_features residue "kidera" = some v ∧ v.length = 10) := by
  refine ⟨?_, ?_, ?_, ?_⟩
  · intro h
    rw [aa_features_meiler_eq, h]
    simpa using meiler_unknown_zero
  · intro h
    rw [aa_features_kidera_eq, h]
    simpa using kidera_unknown_zero
  · cases h : meiler_table.lookup residue with
    | none =>
      refine ⟨List.replicate 7 (0 : ℚ), ?_, by simp⟩
      rw [aa_features_meiler_eq, h]
      simpa using meiler_unknown_zero
    | some v =>
      refine ⟨v, ?_, ?_⟩
      · rw [aa_features_meiler_eq, h]
        simp
      · have hm : (residue, v) ∈ meiler_table := lookup_mem h
        have := List.all_eq_true.mp meiler_row_lengths _ hm
        simpa using this
  · cases h : kidera_table.lookup residue with
    | none =>
      refine ⟨List.replicate 10 (0 : ℚ), ?_, by simp⟩
      rw [aa_features_kidera_eq, h]
      simpa using kidera_unknown_zero
    | some v =>
      refine ⟨v, ?_, ?_⟩
      · rw [aa_features_kidera_eq, h]
        simp
      · have hm : (residue, v) ∈ kidera_table := lookup_mem h
        have := List.all_eq_true.mp kidera_row_lengths _ hm
        simpa using this

/-- Concrete instance of `aa_features_total_unknown_zero` at the
unknown residue name `"ZZZ"`: both schemes embed it to their all-zero
vector. -/
theorem aa_features_total_unknown_zero_witness :
    _aa_features "ZZZ" "meiler" = some (List.replicate 7 (0 : ℚ)) ∧
    _aa_features "ZZZ" "kidera" = some (List.replicate 10 (0 : ℚ)) :=
  ⟨(aa_features_total_unknown_zero "ZZZ").1 (by decide),
   (aa_features_total_unknown_zero "ZZZ").2.1 (by decide)⟩

/-- Claim C7: when the per-residue descriptor tensors have `D` rows and
the graph has `N > D` nodes, feature attachment zero-pads: each
attached tensor has exactly `N` rows, its first `D` rows are the
descriptor rows unchanged, and its trailing `N - D` rows are all
zeros. -/
theorem add_protein_features_pads (N D : ℕ) (fd : FeatureDict)
    (hss : fd.ss.length = D) (hasa : fd.asa.length = D)
    (hrsa : fd.rsa.length = D) (hD : 0 < D) (hDN : D < N) :
    ((_add_protein_features N fd).ss.length = N ∧
      (_add_protein_features N fd).ss.take D = fd.ss ∧
      ∀ row ∈ (_add_protein_features N fd).ss.drop D, ∀ q ∈ row, q = 0) ∧
    ((_add_protein_features N fd).asa.length = N ∧
      (_add_protein_features N fd).asa.take D = fd.asa ∧
      ∀ row ∈ (_add_protein_features N fd).asa.drop D, ∀ q ∈ row, q = 0) ∧
    ((_add_protein_features N fd).rsa.length = N ∧
      (_add_protein_features N fd).rsa.take D = fd.rsa ∧
      ∀ row ∈ (_add_protein_features N fd).rsa.drop D, ∀ q ∈ row, q = 0) := by
  have hpos : (0 : ℤ) < (N : ℤ) - (fd.ss.length : ℤ) := by omega
  have htn : ((N : ℤ) - (fd.ss.length : ℤ)).toNat = N - D := by omega
  have hres : _add_protein_features N fd =
      ⟨padRows fd.ss (N - D), padRows fd.asa (N - D), padRows fd.rsa (N - D)⟩ := by
    rw [_add_protein_features, if_pos hpos, htn]
  rw [hres]
  have main : ∀ (m : List (List ℚ)), m.length = D →
      (padRows m (N - D)).length = N ∧
      (padRows m (N - D)).take D = m ∧
      ∀ row ∈ (padRows m (N - D)).drop D, ∀ q ∈ row, q = 0 := by
    intro m hm
    unfold padRows
    refine ⟨?_, ?_, ?_⟩
    · simp [hm]
      omega
    · rw [← hm, List.take_left]
    · rw [← hm, List.drop_left]
      intro row hrow q hq
      have := List.eq_of_mem_replicate hrow
      subst this
      exact List.eq_of_mem_replicate hq
  exact ⟨main fd.ss hss, main fd.asa hasa, main fd.rsa hrsa⟩

/-- Concrete instance of `add_protein_features_pads` with one descriptor
row and three graph nodes: the padded `ss` tensor gains two zero
rows. -/
theorem add_protein_features_pads_witness :
    (_add_protein_features 3 ⟨[[1, 2]], [[3]], [[4]]⟩).ss.length = 3 ∧
    (_add_protein_features 3 ⟨[[1, 2]], [[3]], [[4]]⟩).ss.take 1 = [[1, 2]] :=
  ⟨(add_protein_features_pads 3 1 ⟨[[1, 2]], [[3]], [[4]]⟩ rfl rfl rfl
      (by decide) (by decide)).1.1,
   (add_protein_features_pads 3 1 ⟨[[1, 2]], [[3]], [[4]]⟩ rfl rfl rfl
      (by decide) (by decide)).1.2.1⟩

theorem mem_distance_based_edges {df : List NodeRow} {c : ℚ} {t : Option ℤ}
    {e : DistEdge} (h : e ∈ _distance_based_edges df c t) :
    e.level_1 < e.level_0 ∧
    distLtB (sqDist ((df.map coord).getD e.level_0 (0, 0, 0))
      ((df.map coord).getD e.level_1 (0, 0, 0))) c = true ∧
    sqDist ((df.map coord).getD e.level_0 (0, 0, 0))
      ((df.map coord).getD e.level_1 (0, 0, 0)) ≠ 0 := by
  unfold _distance_based_edges at h
  have hbase : e ∈ (List.range (df.map coord).length).flatMap (fun i =>
      (List.range (df.map coord).length).filterMap (fun j =>
        if j < i then
          let sq := sqDist ((df.map coord).getD i (0, 0, 0))
            ((df.map coord).getD j (0, 0, 0))
          if distLtB sq c && !(sq == 0) then some (⟨i, j, sq⟩ : DistEdge) else none
        else none)) := by
    split at h
    · exact List.mem_of_mem_filter h
    · exact h
  simp only [List.mem_flatMap, List.mem_filterMap] at hbase
  obtain ⟨i, _, j, _, hsome⟩ := hbase
  by_cases hji : j < i
  · rw [if_pos hji] at hsome
    split at hsome
    · next hcond =>
      cases hsome
      have hc := (Bool.and_eq_true _ _).mp hcond
      refine ⟨hji, hc.1, ?_⟩
      have := hc.2
      simpa using this
    · cases hsome
  · rw [if_neg hji] at hsome
    cases hsome

/-- Claim C2: every edge produced by the distance strategy joins two
distinct nodes, appears only with its lower-triangle orientation
(`level_1 < level_0`, so no unordered pair appears twice), and the
Euclidean distance between its endpoint coordinates is strictly below
the configured cutoff. -/
theorem distance_edges_lower_triangle_lt_cutoff (df : List NodeRow) (c : ℚ)
    (t : Option ℤ) (e : DistEdge) (h : e ∈ _distance_based_edges df c t) :
    e.level_1 < e.level_0 ∧
    Real.sqrt ((sqDist ((df.map coord).getD e.level_0 (0, 0, 0))
      ((df.map coord).getD e.level_1 (0, 0, 0)) : ℚ) : ℝ) < (c : ℝ) ∧
    ∀ q : ℚ, (⟨e.level_1, e.level_0, q⟩ : DistEdge) ∉ _distance_based_edges df c t := by
  obtain ⟨hlt, hdist, _⟩ := mem_distance_based_edges h
  refine ⟨hlt, distLtB_sqrt hdist, ?_⟩
  intro q hq
  have h2 := (mem_distance_based_edges hq).1
  simp only at h2
  omega

/-- Concrete instance of `distance_edges_lower_triangle_lt_cutoff`: on
`sample_df_pair` with cutoff 2 the single produced edge `(1, 0)` is
lower-triangular and its distance is below 2. -/
theorem distance_edges_lower_triangle_lt_cutoff_witness :
    (0 : ℕ) < 1 ∧
    Real.sqrt ((sqDist ((sample_df_pair.map coord).getD 1 (0, 0, 0))
      ((sample_df_pair.map coord).getD 0 (0, 0, 0)) : ℚ) : ℝ) < ((2 : ℚ) : ℝ) :=
  ⟨(distance_edges_lower_triangle_lt_cutoff sample_df_pair 2 none ⟨1, 0, 1⟩
      (by with_unfolding_all decide)).1,
   (distance_edges_lower_triangle_lt_cutoff sample_df_pair 2 none ⟨1, 0, 1⟩
      (by with_unfolding_all decide)).2.1⟩

theorem truthy_some_ne {v : ℤ} (hv : v ≠ 0) : truthy (some v) = true := by
  simp [truthy, hv]

theorem optionMapList_mem {α β : Type} {f : α → Option β} {l : List α}
    {l' : List β} (h : optionMapList f l = some l') :
    ∀ b ∈ l', ∃ a ∈ l, f a = some b := by
  induction l generalizing l' with
  | nil =>
    unfold optionMapList at h
    cases h
    simp
  | cons a as ih =>
    unfold optionMapList at h
    cases hfa : f a with
    | none => rw [hfa] at h; simp at h
    | some b0 =>
      rw [hfa] at h
      cases hrest : optionMapList f as with
      | none => rw [hrest] at h; simp at h
      | some bs =>
        rw [hrest] at h
        cases h
        intro b hb
        rcases List.mem_cons.mp hb with hb0 | hbs
        · exact ⟨a, List.mem_cons_self _ _, hb0 ▸ hfa⟩
        · obtain ⟨a', ha', hfa'⟩ := ih hrest b hbs
          exact ⟨a', List.mem_cons_of_mem _ ha', hfa'⟩

theorem distance_edges_threshold {df : List NodeRow} {c : ℚ} {v : ℤ}
    (hv : v ≠ 0) :
    ∀ e ∈ _distance_based_edges df c (some v),
      v < |(e.level_0 : ℤ) - (e.level_1 : ℤ)| := by
  intro e he
  unfold _distance_based_edges at he
  split at he
  · have := (List.mem_filter.mp he).2
    exact of_decide_eq_true this
  · next hfalse => exact absurd (truthy_some_ne hv) (by simp [hfalse])

theorem knn_edges_threshold {df : List NodeRow} {k : ℕ} {mode : String}
    {incl : Bool} {v : ℤ} {l : List KnnEdge} (hv : v ≠ 0)
    (h : _k_nn_edges df k mode incl (some v) = some l) :
    ∀ e ∈ l, v < |(e.res1 : ℤ) - (e.res2 : ℤ)| := by
  simp only [_k_nn_edges] at h
  cases hg : ((!incl && (df.map coord).length ≤ k) || (incl && (df.map coord).length < k) : Bool) with
  | true => rw [hg] at h; simp at h
  | false =>
    rw [hg] at h
    simp only [Bool.false_eq_true, if_false] at h
    rw [if_pos (truthy_some_ne hv)] at h
    cases h
    intro e he
    have := (List.mem_filter.mp he).2
    exact of_decide_eq_true this

theorem delaunay_edges_threshold {df : List NodeRow} {indices indptr : List ℕ}
    {v : ℤ} (hv : v ≠ 0) :
    ∀ e ∈ _get_delaunay_edges df indices indptr (some v),
      v < |(e.res1 : ℤ) - (e.res2 : ℤ)| := by
  intro e he
  unfold _get_delaunay_edges at he
  split at he
  · have := (List.mem_filter.mp he).2
    exact of_decide_eq_true this
  · next hfalse => exact absurd (truthy_some_ne hv) (by simp [hfalse])

theorem get_protein_edges_threshold {gran : String} {w : List String}
    {cs : String} {v : ℤ} {lines : List (String × String × String)}
    {l : List EdgeRow} (hv : v ≠ 0)
    (h : _get_protein_edges gran w cs (some v) lines = some l) :
    ∀ r ∈ l, ∃ a b : ℤ, extract_int r.res1 = some a ∧
      extract_int r.res2 = some b ∧ v < |a - b| := by
  unfold _get_protein_edges at h
  cases hp : optionMapList (parse_contact_line gran) lines with
  | none => rw [hp] at h; simp at h
  | some rows =>
    rw [hp] at h
    have h2 : apply_threshold (some v) (filter_contact_edges w cs rows) = some l := h
    unfold apply_threshold at h2
    rw [if_pos (truthy_some_ne hv)] at h2
    replace h := h2
    cases hm : optionMapList
        (fun r =>
          match extract_int r.res1, extract_int r.res2 with
          | some a, some b => some (r, a, b)
          | _, _ => none)
        (filter_contact_edges w cs rows) with
    | none => rw [hm] at h; simp at h
    | some nums =>
      rw [hm] at h
      cases h
      intro r hr
      obtain ⟨x, hx, hx1⟩ := List.mem_map.mp hr
      have hcond := (List.mem_filter.mp hx).2
      obtain ⟨r', _, hfr'⟩ := optionMapList_mem hm x (List.mem_of_mem_filter hx)
      cases ha : extract_int r'.res1 with
      | none => rw [ha] at hfr'; simp at hfr'
      | some a =>
        cases hb : extract_int r'.res2 with
        | none => rw [ha, hb] at hfr'; simp at hfr'
        | some b =>
          rw [ha, hb] at hfr'
          cases hfr'
          subst hx1
          exact ⟨a, b, ha, hb, of_decide_eq_true hcond⟩

/-- Counterexample to claim C4 as stated: with threshold `T = 1`, the
distance strategy on `sample_df_seqsep` (cutoff 2) retains the edge
`(2, 0)`, yet its endpoint nodes carry the *same* residue sequence
number 5, so `|residue_number(src) − residue_number(dst)| = 0 ≯ T`: the
filter compares positional indices, not residue numbers. -/
theorem seqsep_filter_counterexample :
    (⟨2, 0, 1⟩ : DistEdge) ∈ _distance_based_edges sample_df_seqsep 2 (some 1) ∧
    (sample_df_seqsep.getD 2 default).residue_number =
      (sample_df_seqsep.getD 0 default).residue_number ∧
    ¬((1 : ℤ) < |(sample_df_seqsep.getD 2 default).residue_number -
        (sample_df_seqsep.getD 0 default).residue_number|) :=
  ⟨by with_unfolding_all decide, by decide, by decide⟩

/-- Claim C4 (amended): with a nonzero minimum sequence-separation
threshold `T`, every retained contact edge satisfies `|a − b| > T` for
`a`, `b` the first digit runs extracted from the endpoint identifier
strings (the residue number for well-formed `chain:name:number`
identifiers), while every retained distance, k-nearest-neighbour and
Delaunay edge satisfies `|i − j| > T` for `i`, `j` the endpoints'
positional indices in the cleaned node table — not their residue
sequence numbers. -/
theorem seqsep_filter_amended :
    (∀ (gran : String) (w : List String) (cs : String) (v : ℤ)
        (lines : List (String × String × String)) (l : List EdgeRow),
      v ≠ 0 → _get_protein_edges gran w cs (some v) lines = some l →
      ∀ r ∈ l, ∃ a b : ℤ, extract_int r.res1 = some a ∧
        extract_int r.res2 = some b ∧ v < |a - b|) ∧
    (∀ (df : List NodeRow) (c : ℚ) (v : ℤ), v ≠ 0 →
      ∀ e ∈ _distance_based_edges df c (some v),
        v < |(e.level_0 : ℤ) - (e.level_1 : ℤ)|) ∧
    (∀ (df : List NodeRow) (k : ℕ) (mode : String) (incl : Bool) (v : ℤ)
        (l : List KnnEdge), v ≠ 0 →
      _k_nn_edges df k mode incl (some v) = some l →
      ∀ e ∈ l, v < |(e.res1 : ℤ) - (e.res2 : ℤ)|) ∧
    (∀ (df : List NodeRow) (indices indptr : List ℕ) (v : ℤ), v ≠ 0 →
      ∀ e ∈ _get_delaunay_edges df indices indptr (some v),
        v < |(e.res1 : ℤ) - (e.res2 : ℤ)|) :=
  ⟨fun _ _ _ _ _ _ hv h => get_protein_edges_threshold hv h,
   fun _ _ _ hv => distance_edges_threshold hv,
   fun _ _ _ _ _ _ hv h => knn_edges_threshold hv h,
   fun _ _ _ _ hv => delaunay_edges_threshold hv⟩

/-- Concrete instance of `seqsep_filter_amended` (distance conjunct) on
`sample_df_seqsep` with threshold 1: the retained edge `(2, 0)` has
index separation `2 > 1`. -/
theorem seqsep_filter_amended_witness :
    (1 : ℤ) < |((2 : ℕ) : ℤ) - ((0 : ℕ) : ℤ)| :=
  seqsep_filter_amended.2.1 sample_df_seqsep 2 1 (by decide) ⟨2, 0, 1⟩
    (by with_unfolding_all decide)

/-- Claim C10: a threshold of `0` is falsy in Python, so with
`long_interaction_threshold = 0` no strategy applies the
sequence-separation filter: contact, distance, k-nearest-neighbour and
Delaunay edge construction each return exactly the same edges as with no
threshold configured. -/
theorem threshold_zero_noop :
    (∀ (gran : String) (w : List String) (cs : String)
        (lines : List (String × String × String)),
      _get_protein_edges gran w cs (some 0) lines =
        _get_protein_edges gran w cs none lines) ∧
    (∀ (df : List NodeRow) (c : ℚ),
      _distance_based_edges df c (some 0) = _distance_based_edges df c none) ∧
    (∀ (df : List NodeRow) (k : ℕ) (mode : String) (incl : Bool),
      _k_nn_edges df k mode incl (some 0) = _k_nn_edges df k mode incl none) ∧
    (∀ (df : List NodeRow) (indices indptr : List ℕ),
      _get_delaunay_edges df indices indptr (some 0) =
        _get_delaunay_edges df indices indptr none) :=
  ⟨fun _ _ _ _ => rfl, fun _ _ => rfl, fun _ _ _ _ => rfl, fun _ _ _ => rfl⟩

theorem apply_threshold_subset {t : Option ℤ} {rows l : List EdgeRow}
    (h : apply_threshold t rows = some l) : ∀ r ∈ l, r ∈ rows := by
  unfold apply_threshold at h
  split at h
  · cases hm : optionMapList
        (fun r =>
          match extract_int r.res1, extract_int r.res2 with
          | some a, some b => some (r, a, b)
          | _, _ => none) rows with
    | none => rw [hm] at h; simp at h
    | some nums =>
      rw [hm] at h
      cases h
      intro r hr
      obtain ⟨x, hx, hx1⟩ := List.mem_map.mp hr
      obtain ⟨r', hr', hfr'⟩ := optionMapList_mem hm x (List.mem_of_mem_filter hx)
      cases ha : extract_int r'.res1 with
      | none => rw [ha] at hfr'; simp at hfr'
      | some a =>
        cases hb : extract_int r'.res2 with
        | none => rw [ha, hb] at hfr'; simp at hfr'
        | some b =>
          rw [ha, hb] at hfr'
          cases hfr'
          exact hx1 ▸ hr'
  · cases h
    exact fun r hr => hr

theorem filter_contact_edges_itype {w : List String} {cs : String}
    {rows : List EdgeRow} :
    ∀ r ∈ filter_contact_edges w cs rows, r.interaction_type ∈ w := by
  intro r hr
  simp only [filter_contact_edges] at hr
  replace hr := List.mem_of_mem_filter hr
  replace hr := List.mem_of_mem_filter hr
  replace hr := List.mem_of_mem_filter hr
  replace hr := List.mem_of_mem_filter hr
  replace hr := List.mem_of_mem_filter hr
  replace hr := List.mem_of_mem_filter hr
  have hr2 : r ∈ rows.dedup.filter (fun r => decide (r.interaction_type ∈ w)) := by
    split at hr
    · exact List.mem_of_mem_filter (List.mem_of_mem_filter hr)
    · exact hr
  exact of_decide_eq_true (List.mem_filter.mp hr2).2

theorem get_protein_edges_itype {gran : String} {w : List String} {cs : String}
    {t : Option ℤ} {lines : List (String × String × String)} {l : List EdgeRow}
    (h : _get_protein_edges gran w cs t lines = some l) :
    ∀ r ∈ l, r.interaction_type ∈ w := by
  unfold _get_protein_edges at h
  cases hp : optionMapList (parse_contact_line gran) lines with
  | none => rw [hp] at h; simp at h
  | some rows =>
    rw [hp] at h
    have h2 : apply_threshold t (filter_contact_edges w cs rows) = some l := h
    intro r hr
    exact filter_contact_edges_itype r (apply_threshold_subset h2 r hr)

theorem count_true_map_beq_zero {x : String} :
    ∀ {w : List String}, x ∉ w → (w.map (fun s => x == s)).count true = 0 := by
  intro w
  induction w with
  | nil => intro _; rfl
  | cons a as ih =>
    intro hx
    have h1 : x ≠ a := fun hh => hx (hh ▸ List.mem_cons_self a as)
    have h2 : x ∉ as := fun hh => hx (List.mem_cons_of_mem _ hh)
    simp only [List.map_cons, List.count_cons, ih h2]
    simp [h1]

theorem count_true_onek {x : String} {w : List String} (hw : w.Nodup)
    (hx : x ∈ w) : (_onek_encoding_unk x w).count true = 1 := by
  unfold _onek_encoding_unk
  induction w with
  | nil => cases hx
  | cons a as ih =>
    rcases List.mem_cons.mp hx with rfl | hxs
    · have h0 := count_true_map_beq_zero (List.nodup_cons.mp hw).1
      simp only [List.map_cons, List.count_cons, h0]
      simp
    · have ha : x ≠ a := by
        intro hh
        subst hh
        exact (List.nodup_cons.mp hw).1 hxs
      have hrec := ih (List.nodup_cons.mp hw).2 hxs
      simp only [List.map_cons, List.count_cons, hrec]
      simp [ha]

/-- Counterexample to claim C3 as stated: with the duplicated
configured whitelist `["sb", "sb"]`, the contact pipeline inserts an
edge whose interaction-kind vector is `[1, 1]` — two entries equal to 1,
not exactly one. -/
theorem contact_one_hot_counterexample :
    contact_pipeline "CA" ["sb", "sb"] "all" none
        [("sb", "A:ALA:1:CA", "A:GLY:2:CA")] ["A:ALA:1", "A:GLY:2"] =
      some (Sum.inr [⟨0, 1, [true, true], 1⟩]) ∧
    ¬(([true, true] : List Bool).count true = 1) :=
  ⟨by with_unfolding_all decide, by decide⟩

/-- Claim C3 (amended): provided the configured interaction-type
whitelist has no duplicate entries (true of the default), every
contact-strategy edge inserted into the graph carries an
interaction-kind vector of the whitelist's length with exactly one
entry 1, namely the one-hot encoding of a whitelisted interaction type;
edges with a kind outside the whitelist are never inserted. -/
theorem contact_one_hot (gran : String) (w : List String) (cs : String)
    (t : Option ℤ) (lines : List (String × String × String))
    (ids : List String) (ces : List ContactEdge) (hw : w.Nodup)
    (h : contact_pipeline gran w cs t lines ids = some (Sum.inr ces)) :
    ∀ ce ∈ ces, ce.rel_type.length = w.length ∧ ce.rel_type.count true = 1 ∧
      ∃ s ∈ w, ce.rel_type = _onek_encoding_unk s w := by
  unfold contact_pipeline at h
  cases hg : _get_protein_edges gran w cs t lines with
  | none => rw [hg] at h; simp at h
  | some l =>
    rw [hg] at h
    have h2 : _add_protein_edges_to_graph gran ids w l = Sum.inr ces :=
      Option.some.inj h
    simp only [_add_protein_edges_to_graph] at h2
    split at h2
    · exact absurd h2 (by simp)
    · have h3 := Sum.inr.inj h2
      intro ce hce
      rw [← h3] at hce
      obtain ⟨r, hrmem, hmk⟩ := List.mem_map.mp hce
      have hrl : r ∈ l :=
        List.mem_of_mem_filter (List.mem_of_mem_filter hrmem)
      have hit : r.interaction_type ∈ w := get_protein_edges_itype hg r hrl
      have hrel : ce.rel_type = _onek_encoding_unk r.interaction_type w := by
        rw [← hmk]
      rw [hrel]
      refine ⟨by simp [_onek_encoding_unk], count_true_onek hw hit,
        r.interaction_type, hit, rfl⟩

/-- Concrete instance of `contact_one_hot` with the duplicate-free
whitelist `["sb"]`: the single inserted edge's interaction vector is the
one-hot `[true]`. -/
theorem contact_one_hot_witness :
    ((⟨0, 1, [true], 1⟩ : ContactEdge).rel_type.length =
      (["sb"] : List String).length) ∧
    (⟨0, 1, [true], 1⟩ : ContactEdge).rel_type.count true = 1 ∧
    ∃ s ∈ (["sb"] : List String),
      (⟨0, 1, [true], 1⟩ : ContactEdge).rel_type = _onek_encoding_unk s ["sb"] :=
  contact_one_hot "CA" ["sb"] "all" none [("sb", "A:ALA:1:CA", "A:GLY:2:CA")]
    ["A:ALA:1", "A:GLY:2"] [⟨0, 1, [true], 1⟩] (by decide)
    (by with_unfolding_all decide) ⟨0, 1, [true], 1⟩ (by decide)

theorem insertSorted_length (le : ℕ → ℕ → Bool) (a : ℕ) (l : List ℕ) :
    (insertSorted le a l).length = l.length + 1 := by
  induction l with
  | nil => rfl
  | cons b bs ih =>
    unfold insertSorted
    split
    · simp
    · simpa using ih

theorem sortByB_length (le : ℕ → ℕ → Bool) (l : List ℕ) :
    (sortByB le l).length = l.length := by
  induction l with
  | nil => rfl
  | cons a as ih =>
    unfold sortByB
    rw [insertSorted_length, ih, List.length_cons]

theorem range_filter_ne_length {n i : ℕ} (h : i < n) :
    ((List.range n).filter (fun j => !(j == i))).length = n - 1 := by
  induction n with
  | zero => cases h
  | succ m ih =>
    rw [List.range_succ, List.filter_append]
    by_cases him : i = m
    · subst him
      have h1 : (List.range i).filter (fun j => !(j == i)) = List.range i := by
        rw [List.filter_eq_self]
        intro a ha
        have : a < i := List.mem_range.mp ha
        simp
        omega
      rw [h1]
      simp
    · have him' : i < m := by omega
      rw [List.length_append, ih him']
      have h2 : ([m].filter (fun j => !(j == i))).length = 1 := by
        simp [Ne.symm him]
      rw [h2]
      omega

theorem kNeighbors_length {coords : List (ℚ × ℚ × ℚ)} {i k : ℕ}
    (hi : i < coords.length) (hk : k ≤ coords.length - 1) :
    (kNeighbors coords false i k).length = k := by
  unfold kNeighbors
  rw [List.length_take, sortByB_length]
  have h1 : ((List.range coords.length).filter
      (fun j => false || !(j == i))).length = coords.length - 1 := by
    simpa using range_filter_ne_length hi
  rw [h1]
  omega

theorem filter_flatMap_src_nil {f : ℕ → List KnnEdge} {lst : List ℕ} {i : ℕ}
    (hproj : ∀ a e, e ∈ f a → e.res1 = a) (hi : i ∉ lst) :
    (lst.flatMap f).filter (fun e => e.res1 == i) = [] := by
  rw [List.filter_eq_nil]
  intro e he
  obtain ⟨a, ha, hea⟩ := List.mem_flatMap.mp he
  have hne : a ≠ i := fun hh => hi (hh ▸ ha)
  simp [hproj a e hea, hne]

theorem filter_flatMap_src_count {f : ℕ → List KnnEdge} {lst : List ℕ} {i : ℕ}
    (hproj : ∀ a e, e ∈ f a → e.res1 = a) (hnd : lst.Nodup) (hi : i ∈ lst) :
    ((lst.flatMap f).filter (fun e => e.res1 == i)).length = (f i).length := by
  induction lst with
  | nil => cases hi
  | cons a as ih =>
    rw [List.flatMap_cons, List.filter_append, List.length_append]
    rcases List.mem_cons.mp hi with rfl | his
    · have h1 : (f i).filter (fun e => e.res1 == i) = f i := by
        rw [List.filter_eq_self]
        intro e he
        simp [hproj i e he]
      have h2 : (as.flatMap f).filter (fun e => e.res1 == i) = [] :=
        filter_flatMap_src_nil hproj (List.nodup_cons.mp hnd).1
      rw [h1, h2]
      simp
    · have ha : a ≠ i := fun hh => (List.nodup_cons.mp hnd).1 (hh ▸ his)
      have h1 : (f a).filter (fun e => e.res1 == i) = [] := by
        rw [List.filter_eq_nil]
        intro e he
        simp [hproj a e he, ha]
      rw [h1, ih (List.nodup_cons.mp hnd).2 his]
      simp

/-- Counterexample to claim C5 as stated: on `sample_df_line` (3 nodes)
with `k = 2 < 3` and `include_self = false` but a configured
sequence-separation threshold of 1, node 0 retains only **one**
outgoing k-NN edge, not `k = 2` (the edge to its nearest neighbour,
index 1, is dropped by the threshold filter). -/
theorem knn_exactly_k_counterexample :
    2 < sample_df_line.length ∧
    (((_k_nn_edges sample_df_line 2 "connectivity" false (some 1)).getD
        []).filter (fun e => e.res1 == 0)).length = 1 ∧
    (1 : ℕ) ≠ 2 :=
  ⟨by decide, by with_unfolding_all decide, by decide⟩

/-- Claim C5 (amended): for every cleaned node table with `N` nodes and
every `k` with `N > k`, when `include_self` is false **and no
sequence-separation threshold is in effect** (`None` or `0`), the
k-nearest-neighbour strategy produces exactly `k` outgoing edges for
every node. -/
theorem knn_exactly_k (df : List NodeRow) (k : ℕ) (t : Option ℤ) (i : ℕ)
    (hk : k < df.length) (ht : truthy t = false) (hi : i < df.length) :
    (((_k_nn_edges df k "connectivity" false t).getD []).filter
      (fun e => e.res1 == i)).length = k := by
  have hn : (df.map coord).length = df.length := by simp
  have hsome : _k_nn_edges df k "connectivity" false t =
      some ((List.range df.length).flatMap (fun a =>
        (kNeighbors (df.map coord) false a k).map (fun j =>
          (⟨a, j, 1⟩ : KnnEdge)))) := by
    simp only [_k_nn_edges, hn]
    rw [if_neg (by simp; omega)]
    rw [if_neg (by rw [ht]; simp)]
    rfl
  rw [hsome, Option.getD_some]
  rw [filter_flatMap_src_count
    (f := fun a => (kNeighbors (df.map coord) false a k).map (fun j =>
      (⟨a, j, 1⟩ : KnnEdge)))
    (by
      intro a e he
      obtain ⟨j, _, hj⟩ := List.mem_map.mp he
      rw [← hj])
    (List.nodup_range df.length) (List.mem_range.mpr hi)]
  rw [List.length_map]
  exact kNeighbors_length (hn ▸ hi) (by omega)

/-- Concrete instance of `knn_exactly_k` on `sample_df_line` with
`k = 1` and no threshold: node 0 has exactly one outgoing edge. -/
theorem knn_exactly_k_witness :
    (((_k_nn_edges sample_df_line 1 "connectivity" false none).getD
        []).filter (fun e => e.res1 == 0)).length = 1 :=
  knn_exactly_k sample_df_line 1 none 0 (by decide) rfl (by decide)

theorem buildLoop_cons_open (rest : List Char) (i : ℕ) (st : List ℕ)
    (bb bp : List (ℕ × ℕ)) :
    buildLoop ('(' :: rest) i st bb bp =
      buildLoop rest (i + 1) (i :: st)
        (if i > 0 then bb ++ [(i, i - 1)] else bb) bp := rfl

theorem buildLoop_cons_close (rest : List Char) (i : ℕ) (j : ℕ) (st0 : List ℕ)
    (bb bp : List (ℕ × ℕ)) :
    buildLoop (')' :: rest) i (j :: st0) bb bp =
      buildLoop rest (i + 1) st0
        (if i > 0 then bb ++ [(i, i - 1)] else bb) (bp ++ [(i, j)]) := rfl

theorem buildLoop_cons_close_nil (rest : List Char) (i : ℕ)
    (bb bp : List (ℕ × ℕ)) :
    buildLoop (')' :: rest) i [] bb bp = Except.error () := rfl

theorem buildLoop_cons_dot (rest : List Char) (i : ℕ) (st : List ℕ)
    (bb bp : List (ℕ × ℕ)) :
    buildLoop ('.' :: rest) i st bb bp =
      buildLoop rest (i + 1) st
        (if i > 0 then bb ++ [(i, i - 1)] else bb) bp := rfl

theorem buildLoop_cons_other (c : Char) (rest : List Char) (i : ℕ)
    (st : List ℕ) (bb bp : List (ℕ × ℕ)) (h1 : (c == '(') = false)
    (h2 : (c == ')') = false) (h3 : (c == '.') = false) :
    buildLoop (c :: rest) i st bb bp = Except.ok none := by
  rw [buildLoop.eq_def]
  simp [h1, h2, h3]

theorem stackSafe_open (cs : List Char) (d : ℕ) :
    stackSafe ('(' :: cs) d = stackSafe cs (d + 1) := rfl

theorem stackSafe_close (cs : List Char) (d : ℕ) :
    stackSafe (')' :: cs) d = (decide (0 < d) && stackSafe cs (d - 1)) := rfl

theorem stackSafe_dot (cs : List Char) (d : ℕ) :
    stackSafe ('.' :: cs) d = stackSafe cs d := rfl

theorem ifbb_length (i : ℕ) (bb : List (ℕ × ℕ)) :
    (if i > 0 then bb ++ [(i, i - 1)] else bb).length =
      bb.length + (if i > 0 then 1 else 0) := by
  split <;> simp

theorem buildLoop_ok : ∀ (cs : List Char) (i : ℕ) (st : List ℕ)
    (bb bp : List (ℕ × ℕ)),
    allDotBracket cs = true → stackSafe cs st.length = true →
    ∃ st' bb' bp', buildLoop cs i st bb bp = Except.ok (some (st', bb', bp')) ∧
      bb'.length = bb.length + (i + cs.length - max 1 i) ∧
      bp'.length = bp.length + cs.count ')' := by
  intro cs
  induction cs with
  | nil =>
    intro i st bb bp _ _
    exact ⟨st, bb, bp, rfl, by simp only [List.length_nil]; omega, by simp⟩
  | cons c rest ih =>
    intro i st bb bp hall hsafe
    simp only [allDotBracket, List.all_cons, Bool.and_eq_true] at hall
    obtain ⟨hc, hrest⟩ := hall
    have hrest' : allDotBracket rest = true := hrest
    rcases Bool.or_eq_true _ _ |>.mp hc with hc' | hdot
    rotate_left
    · have hceq : c = '.' := by simpa using hdot
      subst hceq
      rw [buildLoop_cons_dot]
      rw [stackSafe_dot] at hsafe
      obtain ⟨st', bb', bp', hrun, hbb, hbp⟩ :=
        ih (i + 1) st (if i > 0 then bb ++ [(i, i - 1)] else bb) bp hrest' hsafe
      refine ⟨st', bb', bp', hrun, ?_, ?_⟩
      · rw [hbb, ifbb_length]
        simp only [List.length_cons]
        rcases Nat.eq_zero_or_pos i with hi | hi
        · subst hi
          rw [if_neg (lt_irrefl 0)]
          omega
        · rw [if_pos hi]
          omega
      · rw [hbp]
        have hcnt : ('.' :: rest).count ')' = rest.count ')' := by
          simp [List.count_cons]
        omega
    rcases Bool.or_eq_true _ _ |>.mp hc' with hopen | hclose
    · have hceq : c = '(' := by simpa using hopen
      subst hceq
      rw [buildLoop_cons_open]
      rw [stackSafe_open] at hsafe
      have hsafe' : stackSafe rest (i :: st).length = true := by
        simpa using hsafe
      obtain ⟨st', bb', bp', hrun, hbb, hbp⟩ :=
        ih (i + 1) (i :: st) (if i > 0 then bb ++ [(i, i - 1)] else bb) bp
          hrest' hsafe'
      refine ⟨st', bb', bp', hrun, ?_, ?_⟩
      · rw [hbb, ifbb_length]
        simp only [List.length_cons]
        rcases Nat.eq_zero_or_pos i with hi | hi
        · subst hi
          rw [if_neg (lt_irrefl 0)]
          omega
        · rw [if_pos hi]
          omega
      · rw [hbp]
        have hcnt : ('(' :: rest).count ')' = rest.count ')' := by
          simp [List.count_cons]
        omega
    · have hceq : c = ')' := by simpa using hclose
      subst hceq
      rw [stackSafe_close] at hsafe
      have hsafe2 := (Bool.and_eq_true _ _).mp hsafe
      have hpos : 0 < st.length := of_decide_eq_true hsafe2.1
      cases st with
      | nil => simp at hpos
      | cons j st0 =>
        rw [buildLoop_cons_close]
        have hsafe' : stackSafe rest st0.length = true := by
          have h := hsafe2.2
          simpa using h
        obtain ⟨st', bb', bp', hrun, hbb, hbp⟩ :=
          ih (i + 1) st0 (if i > 0 then bb ++ [(i, i - 1)] else bb)
            (bp ++ [(i, j)]) hrest' hsafe'
        refine ⟨st', bb', bp', hrun, ?_, ?_⟩
        · rw [hbb, ifbb_length]
          simp only [List.length_cons]
          rcases Nat.eq_zero_or_pos i with hi | hi
          · subst hi
            rw [if_neg (lt_irrefl 0)]
            omega
          · rw [if_pos hi]
            omega
        · rw [hbp]
          simp only [List.length_append, List.length_cons, List.length_nil]
          have hcnt : (')' :: rest).count ')' = rest.count ')' + 1 := by
            simp [List.count_cons]
          omega

theorem buildLoop_underflow : ∀ (cs : List Char) (i : ℕ) (st : List ℕ)
    (bb bp : List (ℕ × ℕ)),
    allDotBracket cs = true → stackSafe cs st.length = false →
    buildLoop cs i st bb bp = Except.error () := by
  intro cs
  induction cs with
  | nil =>
    intro i st bb bp _ hsafe
    simp [stackSafe] at hsafe
  | cons c rest ih =>
    intro i st bb bp hall hsafe
    simp only [allDotBracket, List.all_cons, Bool.and_eq_true] at hall
    obtain ⟨hc, hrest⟩ := hall
    rcases Bool.or_eq_true _ _ |>.mp hc with hc' | hdot
    rotate_left
    · have hceq : c = '.' := by simpa using hdot
      subst hceq
      rw [buildLoop_cons_dot]
      rw [stackSafe_dot] at hsafe
      exact ih (i + 1) st _ bp hrest hsafe
    rcases Bool.or_eq_true _ _ |>.mp hc' with hopen | hclose
    · have hceq : c = '(' := by simpa using hopen
      subst hceq
      rw [buildLoop_cons_open]
      rw [stackSafe_open] at hsafe
      exact ih (i + 1) (i :: st) _ bp hrest (by simpa using hsafe)
    · have hceq : c = ')' := by simpa using hclose
      subst hceq
      rw [stackSafe_close] at hsafe
      cases st with
      | nil => exact buildLoop_cons_close_nil rest i bb bp
      | cons j st0 =>
        rw [buildLoop_cons_close]
        have ha : (decide (0 < (j :: st0).length)) = true := by simp
        rw [ha, Bool.true_and] at hsafe
        exact ih (i + 1) st0 _ _ hrest (by simpa using hsafe)

theorem buildLoop_badchar : ∀ (xs : List Char) (c : Char) (ys : List Char)
    (i : ℕ) (st : List ℕ) (bb bp : List (ℕ × ℕ)),
    allDotBracket xs = true → stackSafe xs st.length = true →
    (c == '(') = false → (c == ')') = false → (c == '.') = false →
    buildLoop (xs ++ c :: ys) i st bb bp = Except.ok none := by
  intro xs
  induction xs with
  | nil =>
    intro c ys i st bb bp _ _ h1 h2 h3
    exact buildLoop_cons_other c ys i st bb bp h1 h2 h3
  | cons x xs ih =>
    intro c ys i st bb bp hall hsafe h1 h2 h3
    simp only [allDotBracket, List.all_cons, Bool.and_eq_true] at hall
    obtain ⟨hx, hrest⟩ := hall
    rcases Bool.or_eq_true _ _ |>.mp hx with hx' | hdot
    rotate_left
    · have hceq : x = '.' := by simpa using hdot
      subst hceq
      rw [List.cons_append, buildLoop_cons_dot]
      rw [stackSafe_dot] at hsafe
      exact ih c ys (i + 1) st _ bp hrest hsafe h1 h2 h3
    rcases Bool.or_eq_true _ _ |>.mp hx' with hopen | hclose
    · have hceq : x = '(' := by simpa using hopen
      subst hceq
      rw [List.cons_append, buildLoop_cons_open]
      rw [stackSafe_open] at hsafe
      exact ih c ys (i + 1) (i :: st) _ bp hrest (by simpa using hsafe) h1 h2 h3
    · have hceq : x = ')' := by simpa using hclose
      subst hceq
      rw [stackSafe_close] at hsafe
      have hsafe2 := (Bool.and_eq_true _ _).mp hsafe
      have hpos : 0 < st.length := of_decide_eq_true hsafe2.1
      cases st with
      | nil => simp at hpos
      | cons j st0 =>
        rw [List.cons_append, buildLoop_cons_close]
        exact ih c ys (i + 1) st0 _ _ hrest (by simpa using hsafe2.2) h1 h2 h3

theorem rna_ok_general (s : String) (hall : allDotBracket s.data = true)
    (hsafe : stackSafe s.data 0 = true) :
    ∃ g : RNAGraphData, dgl_graph_from_dotbracket s none = Except.ok (some g) ∧
      g.numNodes = s.length ∧ g.backbone.length = s.length - 1 ∧
      g.basePairs.length = s.data.count ')' := by
  obtain ⟨st', bb', bp', hrun, hbb, hbp⟩ :=
    buildLoop_ok s.data 0 [] [] [] hall hsafe
  refine ⟨⟨s.length, none, bb', bp'⟩, ?_, rfl, ?_, ?_⟩
  · simp [dgl_graph_from_dotbracket, hrun]
  · show bb'.length = s.length - 1
    have hlen : s.length = s.data.length := rfl
    simp only [List.length_nil] at hbb
    omega
  · show bp'.length = s.data.count ')'
    simpa using hbp

theorem rna_error_on_underflow (s : String) (hall : allDotBracket s.data = true)
    (hsafe : stackSafe s.data 0 = false) :
    dgl_graph_from_dotbracket s none = Except.error () := by
  have h := buildLoop_underflow s.data 0 [] [] [] hall (by simpa using hsafe)
  simp [dgl_graph_from_dotbracket, h]

/-- Counterexample to claim C8 as stated: the input `"("` is
unbalanced (one unmatched opening bracket), yet the builder *does*
yield a graph — a one-node graph with no edges — rather than no
graph. -/
theorem rna_unbalanced_counterexample :
    dgl_graph_from_dotbracket "(" none =
      Except.ok (some ⟨1, none, [], []⟩) ∧
    balancedDotBracket "(" = false :=
  ⟨rfl, by decide⟩

/-- Claim C8 (amended): for every *balanced* dot-bracket string of
length `L` the RNA builder returns a graph with exactly `L` nodes,
`L − 1` backbone edges and `count('(')` base-pair edges (stack
matching); more generally any alphabet-conforming input without
unmatched `)` yields such a graph with `count(')')` base-pair edges
(surplus `(` still yields a graph, contrary to the original claim); an
input with an unmatched `)` aborts with an error (uncaught pop from an
empty stack) rather than yielding no graph; and an input whose prefix
is well-formed up to a character outside the alphabet yields no
graph. -/
theorem rna_dotbracket_amended :
    (∀ s : String, balancedDotBracket s = true →
      ∃ g : RNAGraphData, dgl_graph_from_dotbracket s none = Except.ok (some g) ∧
        g.numNodes = s.length ∧ g.backbone.length = s.length - 1 ∧
        g.basePairs.length = s.data.count '(') ∧
    (∀ s : String, allDotBracket s.data = true → stackSafe s.data 0 = true →
      ∃ g : RNAGraphData, dgl_graph_from_dotbracket s none = Except.ok (some g) ∧
        g.numNodes = s.length ∧ g.backbone.length = s.length - 1 ∧
        g.basePairs.length = s.data.count ')') ∧
    (∀ s : String, allDotBracket s.data = true → stackSafe s.data 0 = false →
      dgl_graph_from_dotbracket s none = Except.error ()) ∧
    (∀ (xs : List Char) (c : Char) (ys : List Char),
      allDotBracket xs = true → stackSafe xs 0 = true →
      (c == '(') = false → (c == ')') = false → (c == '.') = false →
      dgl_graph_from_dotbracket (String.mk (xs ++ c :: ys)) none =
        Except.ok none) := by
  refine ⟨?_, rna_ok_general, rna_error_on_underflow, ?_⟩
  · intro s hbal
    simp only [balancedDotBracket, Bool.and_eq_true] at hbal
    obtain ⟨⟨hall, hsafe⟩, hcnt⟩ := hbal
    have hc : s.data.count '(' = s.data.count ')' := by simpa using hcnt
    obtain ⟨g, hg, h1, h2, h3⟩ := rna_ok_general s hall hsafe
    exact ⟨g, hg, h1, h2, by rw [hc]; exact h3⟩
  · intro xs c ys hall hsafe h1 h2 h3
    have h := buildLoop_badchar xs c ys 0 [] [] []
      hall (by simpa using hsafe) h1 h2 h3
    simp [dgl_graph_from_dotbracket, h]

/-- Concrete instance of `rna_dotbracket_amended` on the balanced input
`"()"`. -/
theorem rna_dotbracket_amended_witness :
    ∃ g : RNAGraphData, dgl_graph_from_dotbracket "()" none = Except.ok (some g) ∧
      g.numNodes = "()".length ∧ g.backbone.length = "()".length - 1 ∧
      g.basePairs.length = "()".data.count '(' :=
  rna_dotbracket_amended.1 "()" (by decide)

/-- Counterexample to claim C9 as stated: the scenario's dot-bracket
and sequence strings have length 16, not 17, and the builder yields a
16-node graph, not a 17-node one. -/
theorem rna_scenario_counterexample :
    ("((((((....))))))".length = 16 ∧ "AUGCAUGCAUGCAUGC".length = 16) ∧
    ((dgl_graph_from_dotbracket "((((((....))))))"
        (some "AUGCAUGCAUGCAUGC")).toOption.bind (fun x => x)).map
      (fun g => g.numNodes) = some 16 ∧
    (16 : ℕ) ≠ 17 := by
  refine ⟨⟨rfl, rfl⟩, by decide, by decide⟩

/-- Claim C9 (amended): the RNA builder applied to the dot-bracket
`"((((((....))))))"` with sequence `"AUGCAUGCAUGCAUGC"` (both of length
16) produces a graph with exactly 16 nodes, 15 backbone edges and 6
base-pair edges, in which every node carries a 5-dimensional one-hot
base feature (exactly one entry 1). -/
theorem rna_scenario_amended :
    ((dgl_graph_from_dotbracket "((((((....))))))"
        (some "AUGCAUGCAUGCAUGC")).toOption.bind (fun x => x)).map
      (fun g => (g.numNodes, g.backbone.length, g.basePairs.length,
        g.x.map (fun feats => (feats.length,
          feats.all (fun row => row.length == 5 && row.count true == 1))))) =
      some (16, 15, 6, some (16, true)) := by decide
